import Mathlib

/-!
# Kreeda Video Integrity & Repetition Analysis Engine — verification

Shallow embedding of the analysis engine of the Kreeda sports-assessment
repository, together with the mobile client services (`upload.ts`, `db.ts`).

The repetition counter `analyze_pushup_rep` and the integrity aggregator
`detect_cheating` are translated from the Python code shown in the
repository README (the only implementation of the engine present in the
repository).  Components of the engine whose implementation is absent from
the repository (the full repetition record builder, the evidence
collectors, the angle calculator, the cheat-flag policy) are modelled from
the specification; each such definition is marked `Modelled from the spec:`
in its doc comment.
-/

namespace Kreeda

/-- The two phases of the repetition state machine (`current_state` in
`analyze_pushup_rep`): `"up"` and `"down"`. -/
inductive Phase where
  | up : Phase
  | down : Phase
deriving DecidableEq

/-- Configuration of the push-up state machine: the "down" angle threshold,
the distinct "up" angle threshold (hysteresis gap), and the form-score pass
threshold.  The README code hardcodes the defaults 90 / 110 / 0.7; the spec
makes them configurable. -/
structure PushupCfg where
  down_threshold : ℚ
  up_threshold : ℚ
  pass_threshold : ℚ

/-- Default push-up configuration: down 90°, up 110°, pass 0.7 (the literal
constants of `analyze_pushup_rep` in the README). -/
def defaultPushupCfg : PushupCfg := ⟨90, 110, 7/10⟩

/-- Mutable state threaded through `analyze_pushup_rep`: `current_state`,
`rep_count`, and the last computed `form_score`. -/
structure PushupState where
  phase : Phase
  rep_count : ℕ
  form_score : ℚ
deriving DecidableEq

/-- Initial machine state: `UP`, no reps counted. -/
def initPushupState : PushupState := ⟨Phase.up, 0, 0⟩

/-- One frame of input to the push-up counter: the elbow angle for the frame
(`none` when `calculate_angle` returned undefined for the frame), and the
value `validate_pushup_form` would compute on the landmarks of the frame
(uninterpreted in the repository, hence carried as an input). -/
structure FrameSample where
  angle : Option ℚ
  form : ℚ
deriving DecidableEq

/-- Per-frame step of `analyze_pushup_rep` (from the README code):

* from `"up"`, when `elbow_angle < 90` go to `"down"` and record
  `form_score = validate_pushup_form(landmarks)`;
* from `"down"`, when `elbow_angle > 110` go to `"up"` and execute
  `rep_count += 1 if form_score > 0.7 else 0`;
* otherwise the state is unchanged.

An undefined angle sample is a gap: per the spec (§4.2) gaps hold the last
known state and never transition. -/
def analyze_pushup_rep (cfg : PushupCfg) (st : PushupState) (s : FrameSample) :
    PushupState :=
  match s.angle with
  | none => st
  | some a =>
    if st.phase = Phase.up ∧ a < cfg.down_threshold then
      { st with phase := Phase.down, form_score := s.form }
    else if st.phase = Phase.down ∧ a > cfg.up_threshold then
      { st with
        phase := Phase.up
        rep_count := st.rep_count + (if st.form_score > cfg.pass_threshold then 1 else 0) }
    else st

/-- Run the push-up counter over a frame sequence from the initial state. -/
def runPushup (cfg : PushupCfg) (frames : List FrameSample) : PushupState :=
  frames.foldl (analyze_pushup_rep cfg) initPushupState

/-- One synthetic repetition cycle: a dip sample (angle `dip`, form value
`form`) followed by a peak sample (angle `peak`).  Concatenating cycles with
`dip < 90 < 110 < peak` gives a sequence that monotonically crosses the
down/up thresholds once per cycle and returns to baseline. -/
structure CycleSpec where
  dip : ℚ
  peak : ℚ
  form : ℚ

/-- The two frames of one synthetic cycle. -/
def cycleFrames (c : CycleSpec) : List FrameSample :=
  [⟨some c.dip, c.form⟩, ⟨some c.peak, c.form⟩]

/-- A synthetic angle sequence made of consecutive repetition cycles. -/
def synthSeq (cs : List CycleSpec) : List FrameSample :=
  (cs.map cycleFrames).flatten

/-- Concrete single-crossing sequence: baseline 120°, dip to 80° (below the
90° down threshold) with form value 0.5, back to 120° (above the 110° up
threshold).  It crosses the down/up thresholds exactly once and returns to
baseline. -/
def singleCrossLowForm : List FrameSample :=
  [⟨some 120, 1/2⟩, ⟨some 80, 1/2⟩, ⟨some 120, 1/2⟩]

/-- Concrete two-cycle synthetic sequence: first cycle with form 1 (valid),
second with form 0.5 (invalid). -/
def twoCyclesMixedForm : List CycleSpec :=
  [⟨80, 120, 1⟩, ⟨85, 115, 1/2⟩]

/-- Concrete in-band oscillation: defined angles only between 95° and 105°,
with one gap frame. -/
def bandOscillation : List FrameSample :=
  [⟨some 95, 1⟩, ⟨some 100, 1⟩, ⟨none, 0⟩, ⟨some 105, 1⟩, ⟨some 96, 1⟩]

/-- The three integrity evidence kinds (spec §3). -/
inductive EvidenceKind where
  | frame_duplication : EvidenceKind
  | face_inconsistency : EvidenceKind
  | rep_rate_violation : EvidenceKind
deriving DecidableEq

/-- Kind-specific integrity penalty: duplication 0.4, face inconsistency
0.3, rate violation 0.5 (the constants of `detect_cheating`). -/
def kindPenalty : EvidenceKind → ℚ
  | EvidenceKind.frame_duplication => 2/5
  | EvidenceKind.face_inconsistency => 3/10
  | EvidenceKind.rep_rate_violation => 1/2

/-- Integrity evidence item (spec §3): kind, frame range, magnitude,
human-readable message. -/
structure EvidenceItem where
  kind : EvidenceKind
  frame_range : ℕ × ℕ
  magnitude : ℚ
  message : String
deriving DecidableEq

/-- Whether the evidence set contains an item of the given kind. -/
def hasKind (ev : List EvidenceItem) (k : EvidenceKind) : Bool :=
  ev.any (fun e => e.kind = k)

/-- Function `detect_cheating` from the README code: start at 1.0; subtract 0.4 when
the frame-duplication signal exceeds 0.1, 0.3 when the face-consistency
variance exceeds 0.01, 0.5 when the maximal rep rate exceeds 3.0; return
`max(0.0, score)`.  The three collaborator signals are its inputs. -/
def detect_cheating (dup_signal face_variance max_rate : ℚ) : ℚ :=
  max 0 (1 - (if dup_signal > 1/10 then 2/5 else 0)
           - (if face_variance > 1/100 then 3/10 else 0)
           - (if max_rate > 3 then 1/2 else 0))

/-- Modelled from the spec: the integrity scorer over the evidence set of a run
(§4.6) — the scorer aggregating `Integrity Evidence Item`s is absent from
the repository (only the signal-level `detect_cheating` appears in the
README).  Start at 1.0; for each evidence kind present subtract the penalty
of that kind at most once, however many items of the kind occurred; clamp below
at 0 (the result never exceeds 1 since penalties are nonnegative). -/
def integrityScore (ev : List EvidenceItem) : ℚ :=
  max 0 (1 - (if hasKind ev EvidenceKind.frame_duplication
                then kindPenalty EvidenceKind.frame_duplication else 0)
           - (if hasKind ev EvidenceKind.face_inconsistency
                then kindPenalty EvidenceKind.face_inconsistency else 0)
           - (if hasKind ev EvidenceKind.rep_rate_violation
                then kindPenalty EvidenceKind.rep_rate_violation else 0))

/-- Modelled from the spec: the cheat-flag policy (§4.6) — absent from the
repository (the mobile client only displays a `cheat_flag` field).  True iff
the integrity score is strictly below the pass threshold (default 1.0: any
penalty applied flags the run). -/
def cheatFlag (threshold : ℚ) (ev : List EvidenceItem) : Bool :=
  decide (integrityScore ev < threshold)

/-- A completed repetition with its completion timestamp (seconds), as
consumed by the repetition-rate collector. -/
structure TimedRep where
  t : ℚ
  frame_range : ℕ × ℕ
deriving DecidableEq

/-- Modelled from the spec: the repetition-rate collector (§4.5) — absent
from the repository (the README only tests `max_rep_rate(rep_timeline) >
3.0`).  For each adjacent pair of completed reps compute the instantaneous
rate `1 / inter-rep time`; when it exceeds the ceiling emit an evidence item
at that frame range with magnitude equal to the observed rate. -/
def rep_rate_violations (ceiling : ℚ) (timeline : List TimedRep) : List EvidenceItem :=
  (timeline.zip timeline.tail).filterMap (fun p =>
    if 1 / (p.2.t - p.1.t) > ceiling then
      some ⟨EvidenceKind.rep_rate_violation, (p.1.frame_range.1, p.2.frame_range.2),
        1 / (p.2.t - p.1.t), "rep rate above physiological ceiling"⟩
    else none)

/-- Five repetitions compressed into one simulated second (completion times
0, 0.25, 0.5, 0.75, 1.0): every adjacent pair has instantaneous rate 4/sec. -/
def fiveRepsInOneSecond : List TimedRep :=
  [⟨0, (0, 7)⟩, ⟨1/4, (8, 15)⟩, ⟨1/2, (16, 23)⟩, ⟨3/4, (24, 31)⟩, ⟨1, (32, 39)⟩]

/-- A repetition record (spec §3): 1-based index, frame range, form score,
validity. -/
structure Repetition where
  rep_index : ℕ
  start_frame : ℕ
  end_frame : ℕ
  form_score : ℚ
  valid : Bool
deriving DecidableEq

/-- Modelled from the spec: state of the full repetition state machine
(§4.2) producing `Repetition` records — absent from the repository (the
README code only keeps a scalar `rep_count`).  Tracks the phase, the frame
at which the current descent began, the form score of the descent, and the
completed repetitions in insertion order. -/
structure RepMachineState where
  phase : Phase
  down_start : ℕ
  desc_form : ℚ
  reps : List Repetition
deriving DecidableEq

/-- Initial full-machine state: `UP`, no reps. -/
def initRepMachineState : RepMachineState := ⟨Phase.up, 0, 0, []⟩

/-- Modelled from the spec: one step of the full repetition machine at frame
index `i`, with the same transition rule as `analyze_pushup_rep`.  On the
`UP→DOWN` transition the descent start frame and form score are recorded; on
the `DOWN→UP` transition a repetition record [down_start, i] is emitted,
valid iff its form score exceeds the pass threshold. -/
def repStep (cfg : PushupCfg) (st : RepMachineState) (i : ℕ) (s : FrameSample) :
    RepMachineState :=
  match s.angle with
  | none => st
  | some a =>
    if st.phase = Phase.up ∧ a < cfg.down_threshold then
      { st with
        phase := Phase.down
        down_start := i
        desc_form := s.form }
    else if st.phase = Phase.down ∧ a > cfg.up_threshold then
      { st with
        phase := Phase.up
        reps := st.reps ++ [⟨st.reps.length + 1, st.down_start, i, st.desc_form,
          decide (st.desc_form > cfg.pass_threshold)⟩] }
    else st

/-- Run the full machine over frames, threading the frame index. -/
def runRepAux (cfg : PushupCfg) : ℕ → RepMachineState → List FrameSample → RepMachineState
  | _, st, [] => st
  | i, st, s :: rest => runRepAux cfg (i + 1) (repStep cfg st i s) rest

/-- Run the full machine from the initial state, frames indexed from 0. -/
def runRepMachine (cfg : PushupCfg) (frames : List FrameSample) : RepMachineState :=
  runRepAux cfg 0 initRepMachineState frames

/-- Invariant of the full machine at next frame index `i`: all recorded reps
ended before `i`, rep ranges are strictly ordered and non-degenerate, and
while descending the descent start lies after every recorded rep and before
`i`. -/
def RepInv (i : ℕ) (st : RepMachineState) : Prop :=
  (∀ r ∈ st.reps, r.end_frame < i) ∧
  List.Pairwise (fun r s => r.end_frame < s.start_frame) st.reps ∧
  (∀ r ∈ st.reps, r.start_frame < r.end_frame) ∧
  (st.phase = Phase.down → st.down_start < i ∧ ∀ r ∈ st.reps, r.end_frame < st.down_start)

/-- Run metadata of an analysis result. -/
structure RunMeta where
  frame_count : ℕ
  duration : ℚ
  sample_stride : ℕ
deriving DecidableEq

/-- The terminal Analysis Result record (spec §3). -/
structure AnalysisResult where
  total_reps : ℕ
  valid_reps : ℕ
  form_scores : List ℚ
  integrity_score : ℚ
  cheat_flag : Bool
  evidence : List EvidenceItem
  reps : List Repetition
  meta : RunMeta
deriving DecidableEq

/-- Engine configuration (spec §6): push-up thresholds, evidence-collector
thresholds, and the cheat-flag threshold. -/
structure EngineCfg where
  pushup : PushupCfg
  dup_threshold : ℚ
  face_threshold : ℚ
  rate_ceiling : ℚ
  cheat_threshold : ℚ

/-- Default engine configuration: thresholds 0.1 (duplication signal), 0.01
(face variance), 3.0 reps/sec, cheat threshold 1.0 (any penalty flags). -/
def defaultEngineCfg : EngineCfg := ⟨defaultPushupCfg, 1/10, 1/100, 3, 1⟩

/-- Input of one analysis run: per-frame samples, per-frame timestamps, the
two collaborator-level anomaly signals of `detect_cheating`, and run
metadata. -/
structure EngineInput where
  frames : List FrameSample
  times : List ℚ
  dup_signal : ℚ
  face_variance : ℚ
  sample_stride : ℕ
  duration : ℚ
deriving DecidableEq

/-- Completion timeline of the recorded reps: each rep stamped with the
timestamp of its end frame. -/
def repTimeline (times : List ℚ) (reps : List Repetition) : List TimedRep :=
  reps.map (fun r => ⟨times.getD r.end_frame 0, (r.start_frame, r.end_frame)⟩)

/-- Frame-duplication evidence from the collaborator-level signal, as
thresholded in `detect_cheating`. -/
def dupEvidence (cfg : EngineCfg) (inp : EngineInput) : List EvidenceItem :=
  if inp.dup_signal > cfg.dup_threshold then
    [⟨EvidenceKind.frame_duplication, (0, inp.frames.length), inp.dup_signal,
      "adjacent-frame duplication detected"⟩]
  else []

/-- Face-consistency evidence from the collaborator-level variance signal,
as thresholded in `detect_cheating`. -/
def faceEvidence (cfg : EngineCfg) (inp : EngineInput) : List EvidenceItem :=
  if inp.face_variance > cfg.face_threshold then
    [⟨EvidenceKind.face_inconsistency, (0, inp.frames.length), inp.face_variance,
      "face position variance above threshold"⟩]
  else []

/-- Modelled from the spec: the full analysis run (§2, §4.7) — the report
builder assembling the Analysis Result is absent from the repository.  Runs
the repetition machine, gathers the evidence of the three collectors, scores
integrity and assembles the result record.  A pure function of its input. -/
def analyze (cfg : EngineCfg) (inp : EngineInput) : AnalysisResult :=
  let m := runRepMachine cfg.pushup inp.frames
  let ev := dupEvidence cfg inp ++ faceEvidence cfg inp ++
    rep_rate_violations cfg.rate_ceiling (repTimeline inp.times m.reps)
  { total_reps := m.reps.length
    valid_reps := (m.reps.filter (fun r => r.valid)).length
    form_scores := m.reps.map (fun r => r.form_score)
    integrity_score := integrityScore ev
    cheat_flag := cheatFlag cfg.cheat_threshold ev
    evidence := ev
    reps := m.reps
    meta := ⟨inp.frames.length, inp.duration, inp.sample_stride⟩ }

/-- A small concrete engine input: two clean push-up cycles, quiet
collaborator signals. -/
def sampleInput : EngineInput :=
  ⟨synthSeq [⟨80, 120, 1⟩, ⟨85, 115, 1/2⟩], [0, 1, 2, 3], 0, 0, 2, 4⟩

/-- Two threshold-crossing cycles whose form scores (0) all fail the pass
threshold: every completed rep is invalid. -/
def allInvalidInput : EngineInput :=
  ⟨synthSeq [⟨80, 120, 0⟩, ⟨85, 115, 0⟩], [0, 1, 2, 3], 0, 0, 2, 4⟩

/-- Two threshold-crossing cycles whose form scores (1) all exceed the pass
threshold: every completed rep is valid. -/
def allValidInput : EngineInput :=
  ⟨synthSeq [⟨80, 120, 1⟩, ⟨85, 115, 1⟩], [0, 1, 2, 3], 0, 0, 2, 4⟩

/-- A 2-D body landmark: frame-normalized coordinates and a confidence. -/
structure Landmark where
  x : ℝ
  y : ℝ
  confidence : ℚ

/-- A derived joint-angle sample: the angle at the middle point in degrees
and the scalar confidence. -/
structure JointAngleSample where
  angle_degrees : ℝ
  confidence : ℚ

/-- Modelled from the spec: the planar angle at vertex `B` of the triple
`(A, B, C)`, in degrees — the geometry helper `calculate_angle` relies on is
absent from the repository.  Computed as the arccosine of the normalized dot
product of the rays `B→A` and `B→C`, scaled from radians to degrees. -/
noncomputable def angleAtVertex (A B C : Landmark) : ℝ :=
  Real.arccos (((A.x - B.x) * (C.x - B.x) + (A.y - B.y) * (C.y - B.y)) /
      (Real.sqrt ((A.x - B.x) ^ 2 + (A.y - B.y) ^ 2) *
        Real.sqrt ((C.x - B.x) ^ 2 + (C.y - B.y) ^ 2))) * 180 / Real.pi

/-- Modelled from the spec: `calculate_angle` (§4.1) — absent from the
repository (the README only calls it).  Returns undefined (`none`) exactly
when some landmark confidence is below the visibility floor; otherwise the
angle at `B` in degrees with confidence the minimum of the three landmark
confidences. -/
noncomputable def calculate_angle (floor : ℚ) (A B C : Landmark) :
    Option JointAngleSample :=
  if A.confidence < floor ∨ B.confidence < floor ∨ C.confidence < floor then none
  else some ⟨angleAtVertex A B C, min (min A.confidence B.confidence) C.confidence⟩

/-! ## Mobile client services (`upload.ts`, `db.ts`) -/

/-- The `error.response` payload inspected by the catch block of `uploadVideo`:
HTTP status, optional `data.detail`, and `statusText`. -/
structure ErrResponseData where
  status : ℕ
  detail : Option String
  statusText : String
deriving DecidableEq

/-- A thrown axios/RNFS error as inspected by the catch block of
`uploadVideo`: an optional `response`, a `request` marker, and an optional
`message`.  JavaScript treats the empty string as falsy, so `none` and
`some ""` behave alike. -/
structure ThrownError where
  response : Option ErrResponseData
  request : Bool
  message : Option String
deriving DecidableEq

/-- The error message built by the catch block of `uploadVideo`:
`error.response` wins, then `error.request`, then `error.message` with the
fallback `Unknown error occurred`. -/
def errorMessageOf (e : ThrownError) : String :=
  match e.response with
  | some r =>
    "Server error: " ++ toString r.status ++ " - " ++
      (match r.detail with
       | some d => if d = "" then r.statusText else d
       | none => r.statusText)
  | none =>
    if e.request then "Network error: Cannot reach server"
    else
      match e.message with
      | some m => if m = "" then "Unknown error occurred" else m
      | none => "Unknown error occurred"

/-- What happens after the file-existence check in `uploadVideo`:
`RNFS.stat` throws before any request is made, or `axios.post` returns a
response with a status and (on 200) a `job_id`, or the post throws. -/
inductive UploadAttempt where
  | statThrown : ThrownError → UploadAttempt
  | response : ℕ → String → UploadAttempt
  | axiosThrown : ThrownError → UploadAttempt

/-- The `UploadResult` interface of `upload.ts` (`success`, optional
`jobId`, optional `error`; the opaque `result` payload carries no logic and
is omitted). -/
structure UploadResult where
  success : Bool
  jobId : Option String
  error : Option String
deriving DecidableEq

/-- Function `UploadService.uploadVideo` (from `src/mobile/src/services/upload.ts`):
if the file does not exist, return a failure result with the message
Video file not found before any network call; otherwise post and map a 200 response to
success, a non-200 response to a status error, and any thrown error — via
the surrounding try/catch — to a `{success: false, error}` result.  The
second component records whether `axios.post` was reached. -/
def uploadVideo (fileExists : Bool) (attempt : UploadAttempt) :
    UploadResult × Bool :=
  if fileExists = false then
    ({ success := false, jobId := none, error := some "Video file not found" }, false)
  else
    match attempt with
    | UploadAttempt.statThrown e =>
      ({ success := false, jobId := none, error := some (errorMessageOf e) }, false)
    | UploadAttempt.response status jobId =>
      if status = 200 then
        ({ success := true, jobId := some jobId, error := none }, true)
      else
        ({ success := false, jobId := none,
           error := some ("Upload failed with status: " ++ toString status) }, true)
    | UploadAttempt.axiosThrown e =>
      ({ success := false, jobId := none, error := some (errorMessageOf e) }, true)

/-- The `TestRecord` interface of `db.ts`. -/
structure TestRecord where
  id : String
  testType : String
  athleteName : String
  filepath : String
  timestamp : ℤ
  synced : Bool
  jobId : Option String
deriving DecidableEq

/-- The record triple returned by `DatabaseService.getStats`. -/
structure DbStats where
  totalRecords : ℕ
  syncedRecords : ℕ
  unsyncedRecords : ℕ
deriving DecidableEq

/-- Function `DatabaseService.getStats` (from `src/mobile/src/services/db.ts`): on a
successful storage read count total records, records with `synced = true`,
and the difference; when the read throws, the catch block returns all three
counts as 0. -/
def getStats : Except String (List TestRecord) → DbStats
  | Except.error _ => ⟨0, 0, 0⟩
  | Except.ok records =>
    ⟨records.length,
     (records.filter (fun r => r.synced)).length,
     records.length - (records.filter (fun r => r.synced)).length⟩

/-- Folding the counter over a concatenation splits. -/
lemma runPushup_foldl_append (cfg : PushupCfg) (st : PushupState)
    (xs ys : List FrameSample) :
    List.foldl (analyze_pushup_rep cfg) st (xs ++ ys)
      = List.foldl (analyze_pushup_rep cfg) (List.foldl (analyze_pushup_rep cfg) st xs) ys := by
  simp

/-- Single step, `UP` phase, angle below the down threshold: descend. -/
lemma analyze_pushup_rep_up_down (cfg : PushupCfg) (st : PushupState) (a f : ℚ)
    (hst : st.phase = Phase.up) (ha : a < cfg.down_threshold) :
    analyze_pushup_rep cfg st ⟨some a, f⟩
      = { st with phase := Phase.down, form_score := f } := by
  simp only [analyze_pushup_rep]
  rw [if_pos ⟨hst, ha⟩]

/-- Single step, `DOWN` phase, angle above the up threshold: rise, counting
the rep iff the recorded form score exceeds the pass threshold. -/
lemma analyze_pushup_rep_down_up (cfg : PushupCfg) (st : PushupState) (a f : ℚ)
    (hst : st.phase = Phase.down) (ha : a > cfg.up_threshold) :
    analyze_pushup_rep cfg st ⟨some a, f⟩
      = { st with
          phase := Phase.up
          rep_count := st.rep_count + (if st.form_score > cfg.pass_threshold then 1 else 0) } := by
  simp only [analyze_pushup_rep]
  rw [if_neg (by simp [hst]), if_pos ⟨hst, ha⟩]

/-- Effect of one synthetic cycle on a machine in the `UP` phase: the dip
sends it to `DOWN` recording the form value of the cycle, the peak closes the
cycle back to `UP`, incrementing `rep_count` iff that form value exceeds the
pass threshold. -/
lemma foldl_cycleFrames (cfg : PushupCfg) (st : PushupState) (c : CycleSpec)
    (hst : st.phase = Phase.up)
    (hdip : c.dip < cfg.down_threshold) (hpeak : c.peak > cfg.up_threshold) :
    List.foldl (analyze_pushup_rep cfg) st (cycleFrames c)
      = { st with
          phase := Phase.up
          form_score := c.form
          rep_count := st.rep_count + (if c.form > cfg.pass_threshold then 1 else 0) } := by
  simp only [cycleFrames, List.foldl_cons, List.foldl_nil]
  rw [analyze_pushup_rep_up_down cfg st c.dip c.form hst hdip]
  rw [analyze_pushup_rep_down_up cfg _ c.peak c.form rfl hpeak]

/-- Generalized synthetic-run lemma: over any list of threshold-crossing
cycles, starting from an `UP` state, the counter adds exactly the number of
cycles whose form value exceeds the pass threshold, and ends in `UP`. -/
lemma foldl_synthSeq (cfg : PushupCfg) (cs : List CycleSpec)
    (h : ∀ c ∈ cs, c.dip < cfg.down_threshold ∧ c.peak > cfg.up_threshold) :
    ∀ st : PushupState, st.phase = Phase.up →
      (List.foldl (analyze_pushup_rep cfg) st (synthSeq cs)).rep_count
          = st.rep_count + (cs.filter (fun c => c.form > cfg.pass_threshold)).length
        ∧ (List.foldl (analyze_pushup_rep cfg) st (synthSeq cs)).phase = Phase.up := by
  induction cs with
  | nil => intro st hst; simp [synthSeq, hst]
  | cons c cs ih =>
    intro st hst
    have hc := h c (List.mem_cons_self c cs)
    have hcs : ∀ x ∈ cs, x.dip < cfg.down_threshold ∧ x.peak > cfg.up_threshold :=
      fun x hx => h x (List.mem_cons_of_mem c hx)
    have hcycle := foldl_cycleFrames cfg st c hst hc.1 hc.2
    have hsplit : synthSeq (c :: cs) = cycleFrames c ++ synthSeq cs := by
      simp [synthSeq]
    rw [hsplit, runPushup_foldl_append, hcycle]
    have := ih hcs { st with
      phase := Phase.up
      form_score := c.form
      rep_count := st.rep_count + (if c.form > cfg.pass_threshold then 1 else 0) } rfl
    refine ⟨?_, this.2⟩
    rw [this.1]
    by_cases hform : c.form > cfg.pass_threshold
    · simp [hform, List.filter_cons]
      omega
    · simp [hform, List.filter_cons]

/-- A frame whose defined angle lies strictly inside the hysteresis band
leaves the machine state untouched, whatever that state is. -/
lemma analyze_pushup_rep_band (cfg : PushupCfg) (st : PushupState) (s : FrameSample)
    (h : ∀ a, s.angle = some a → ¬ a < cfg.down_threshold ∧ ¬ a > cfg.up_threshold) :
    analyze_pushup_rep cfg st s = st := by
  obtain ⟨ang, f⟩ := s
  cases ang with
  | none => rfl
  | some a =>
    have ha := h a rfl
    have h1 : ¬ (st.phase = Phase.up ∧ a < cfg.down_threshold) := fun hc => ha.1 hc.2
    have h2 : ¬ (st.phase = Phase.down ∧ a > cfg.up_threshold) := fun hc => ha.2 hc.2
    simp only [analyze_pushup_rep]
    rw [if_neg h1, if_neg h2]

/-- Folding over a run of in-band frames leaves any state unchanged. -/
lemma foldl_band (cfg : PushupCfg) (frames : List FrameSample)
    (h : ∀ s ∈ frames, ∀ a, s.angle = some a →
      ¬ a < cfg.down_threshold ∧ ¬ a > cfg.up_threshold) :
    ∀ st : PushupState, List.foldl (analyze_pushup_rep cfg) st frames = st := by
  induction frames with
  | nil => intro st; rfl
  | cons s rest ih =>
    intro st
    rw [List.foldl_cons,
      analyze_pushup_rep_band cfg st s (h s (List.mem_cons_self s rest))]
    exact ih (fun x hx => h x (List.mem_cons_of_mem s hx)) st

/-- C1 (counterexample).  The sequence `singleCrossLowForm` monotonically
crosses the down/up thresholds exactly once with return to baseline, so the
claim demands exactly 1 reported repetition — but because the form
score 0.5 of the rep does not exceed the 0.7 pass threshold, `analyze_pushup_rep`
executes `rep_count += 0` on the `DOWN→UP` transition and reports 0. -/
theorem pushup_single_cross_low_form_not_counted :
    (runPushup defaultPushupCfg singleCrossLowForm).rep_count = 0 ∧
    (runPushup defaultPushupCfg singleCrossLowForm).rep_count ≠ 1 := by
  constructor <;>
    norm_num [runPushup, singleCrossLowForm, List.foldl, analyze_pushup_rep,
      initPushupState, defaultPushupCfg]

/-- C1 (amended).  For every synthetic angle sequence made of cycles that
monotonically cross the down/up thresholds (dip below the down threshold,
peak above the up threshold, return to baseline), the machine reports
exactly the number of cycles whose form score exceeds the 0.7 pass
threshold — in particular exactly N when every one of the N reps has a
passing form score, but not N in general. -/
theorem pushup_synth_rep_count (cs : List CycleSpec)
    (h : ∀ c ∈ cs, c.dip < defaultPushupCfg.down_threshold ∧
      c.peak > defaultPushupCfg.up_threshold) :
    (runPushup defaultPushupCfg (synthSeq cs)).rep_count
      = (cs.filter (fun c => c.form > defaultPushupCfg.pass_threshold)).length := by
  have := foldl_synthSeq defaultPushupCfg cs h initPushupState rfl
  unfold runPushup
  rw [this.1]
  simp [initPushupState]

/-- Witness for `pushup_synth_rep_count`: two crossing cycles, one with
passing form (1.0) and one with failing form (0.5), give a reported count of
1 — the length of the passing-form filter. -/
theorem pushup_synth_rep_count_witness :
    (runPushup defaultPushupCfg (synthSeq twoCyclesMixedForm)).rep_count
      = (twoCyclesMixedForm.filter
          (fun c => c.form > defaultPushupCfg.pass_threshold)).length :=
  pushup_synth_rep_count twoCyclesMixedForm (by
    intro c hc
    fin_cases hc <;> norm_num [defaultPushupCfg])

/-- C5.  For every frame sequence whose defined angle samples all lie in
[95°, 105°] — strictly inside the 90°/110° hysteresis gap — the push-up
machine never leaves its initial state (every prefix run equals the initial
state) and reports zero repetitions. -/
theorem pushup_hysteresis_zero_reps (frames : List FrameSample)
    (h : ∀ s ∈ frames, ∀ a, s.angle = some a → 95 ≤ a ∧ a ≤ 105) :
    (∀ n, runPushup defaultPushupCfg (frames.take n) = initPushupState) ∧
    (runPushup defaultPushupCfg frames).rep_count = 0 := by
  have hband : ∀ s ∈ frames, ∀ a, s.angle = some a →
      ¬ a < defaultPushupCfg.down_threshold ∧ ¬ a > defaultPushupCfg.up_threshold := by
    intro s hs a ha
    have := h s hs a ha
    constructor
    · simp only [defaultPushupCfg]
      linarith [this.1]
    · simp only [defaultPushupCfg]
      linarith [this.2]
  constructor
  · intro n
    exact foldl_band defaultPushupCfg (frames.take n)
      (fun s hs => hband s (List.take_subset n frames hs)) initPushupState
  · rw [runPushup, foldl_band defaultPushupCfg frames hband initPushupState]
    simp [initPushupState]

/-- Witness for `pushup_hysteresis_zero_reps`: the concrete in-band
oscillation `bandOscillation` yields zero repetitions. -/
theorem pushup_hysteresis_zero_reps_witness :
    (runPushup defaultPushupCfg bandOscillation).rep_count = 0 :=
  (pushup_hysteresis_zero_reps bandOscillation (by
    intro s hs a ha
    fin_cases hs <;> simp at ha <;> subst ha <;> norm_num)).2

/-- C9.  `uploadVideo`: when the file does not exist the result is exactly
a failure result carrying the message Video file not found, and no network request is
issued; when the file exists and the attempt throws — whether at
`RNFS.stat` or at `axios.post` — the catch block converts the exception
into a `{success: false, error}` result instead of propagating it. -/
theorem uploadVideo_error_contract :
    (∀ attempt, uploadVideo false attempt
      = ({ success := false, jobId := none, error := some "Video file not found" },
          false)) ∧
    (∀ e, (uploadVideo true (UploadAttempt.statThrown e)).1.success = false ∧
      ((uploadVideo true (UploadAttempt.statThrown e)).1.error).isSome = true) ∧
    (∀ e, (uploadVideo true (UploadAttempt.axiosThrown e)).1.success = false ∧
      ((uploadVideo true (UploadAttempt.axiosThrown e)).1.error).isSome = true) := by
  refine ⟨fun attempt => rfl, fun e => ?_, fun e => ?_⟩ <;> simp [uploadVideo]

/-- C10.  `getStats`: on every possible input the returned counts satisfy
`totalRecords = syncedRecords + unsyncedRecords`; on a successful read
`syncedRecords` counts exactly the records with `synced = true`; on a
storage error all three counts are 0. -/
theorem getStats_counts :
    (∀ inp, (getStats inp).totalRecords
      = (getStats inp).syncedRecords + (getStats inp).unsyncedRecords) ∧
    (∀ rs, (getStats (Except.ok rs)).syncedRecords
      = (rs.filter (fun r => r.synced)).length) ∧
    (∀ err, getStats (Except.error err) = ⟨0, 0, 0⟩) := by
  refine ⟨?_, fun rs => rfl, fun err => rfl⟩
  intro inp
  cases inp with
  | error e => rfl
  | ok rs =>
    have hle := List.length_filter_le (fun r => r.synced) rs
    simp only [getStats]
    omega

/-- The integrity score of a non-empty evidence set is strictly below 1,
and of the empty set exactly 1. -/
lemma integrityScore_lt_one_iff (ev : List EvidenceItem) :
    integrityScore ev < 1 ↔ ev ≠ [] := by
  cases ev with
  | nil =>
    simp [integrityScore, hasKind]
  | cons e rest =>
    refine iff_of_true ?_ (List.cons_ne_nil e rest)
    have hk : hasKind (e :: rest) e.kind = true := by simp [hasKind]
    unfold integrityScore
    refine max_lt_iff.mpr ⟨by norm_num, ?_⟩
    rcases hkind : e.kind with _ | _ | _ <;> rw [hkind] at hk <;> rw [if_pos hk] <;>
      split_ifs <;> norm_num [kindPenalty]

/-- C2.  The integrity scorer stays in [0, 1] on every evidence set, its
value depends only on which evidence kinds are present (penalties are
applied at most once per kind, never compounding within a kind), and the
per-kind penalties are 0.4 (duplication), 0.3 (face inconsistency) and 0.5
(rate violation). -/
theorem integrityScore_bounded_kind_extensional :
    (∀ ev, 0 ≤ integrityScore ev ∧ integrityScore ev ≤ 1) ∧
    (∀ ev ev', (∀ k, hasKind ev k = hasKind ev' k) →
      integrityScore ev = integrityScore ev') ∧
    integrityScore [⟨EvidenceKind.frame_duplication, (0, 0), 0, ""⟩] = 3/5 ∧
    integrityScore [⟨EvidenceKind.face_inconsistency, (0, 0), 0, ""⟩] = 7/10 ∧
    integrityScore [⟨EvidenceKind.rep_rate_violation, (0, 0), 0, ""⟩] = 1/2 := by
  refine ⟨fun ev => ⟨le_max_left 0 _, ?_⟩, fun ev ev' h => ?_, ?_, ?_, ?_⟩
  · refine max_le (by norm_num) ?_
    split_ifs <;> norm_num [kindPenalty]
  · unfold integrityScore
    rw [h EvidenceKind.frame_duplication, h EvidenceKind.face_inconsistency,
      h EvidenceKind.rep_rate_violation]
  all_goals (simp [integrityScore, hasKind, kindPenalty]; norm_num [max_def])

/-- Witness for `integrityScore_bounded_kind_extensional`: two separate
duplication items cost the same as one — the score depends only on the kind
being present. -/
theorem integrityScore_witness :
    integrityScore
        [⟨EvidenceKind.frame_duplication, (0, 5), 6, "first run"⟩,
         ⟨EvidenceKind.frame_duplication, (6, 11), 6, "second run"⟩]
      = integrityScore [⟨EvidenceKind.frame_duplication, (0, 11), 12, "one run"⟩] :=
  integrityScore_bounded_kind_extensional.2.1 _ _ (by
    intro k
    cases k <;> simp [hasKind])

/-- C3.  For every analysis run, `cheat_flag` is true iff the integrity
score is strictly below the configured cheat threshold; with the default
configuration (threshold 1.0, so any applied penalty flags the run), the
flag is true iff the evidence set of the run is non-empty. -/
theorem analyze_cheat_flag_policy :
    (∀ cfg inp, (analyze cfg inp).cheat_flag = true ↔
      (analyze cfg inp).integrity_score < cfg.cheat_threshold) ∧
    (∀ inp, (analyze defaultEngineCfg inp).cheat_flag = true ↔
      (analyze defaultEngineCfg inp).evidence ≠ []) := by
  constructor
  · intro cfg inp
    simp [analyze, cheatFlag]
  · intro inp
    simp only [analyze, cheatFlag, decide_eq_true_eq, defaultEngineCfg]
    exact integrityScore_lt_one_iff _

/-- C6.  The repetition-rate collector emits an evidence item iff some
adjacent pair of completed reps has instantaneous rate `1 / inter-rep time`
above the ceiling; every emitted item is of kind `rep_rate_violation` with
magnitude the observed (above-ceiling) rate; and the concrete scenario of 5
reps compressed into 1 simulated second with ceiling 3.0 does produce a
violation item. -/
theorem rep_rate_collector_correct :
    (∀ (ceiling : ℚ) (timeline : List TimedRep),
      rep_rate_violations ceiling timeline ≠ [] ↔
        ∃ p ∈ timeline.zip timeline.tail, 1 / (p.2.t - p.1.t) > ceiling) ∧
    (∀ (ceiling : ℚ) (timeline : List TimedRep) (e : EvidenceItem),
      e ∈ rep_rate_violations ceiling timeline →
        e.kind = EvidenceKind.rep_rate_violation ∧ e.magnitude > ceiling) ∧
    rep_rate_violations 3 fiveRepsInOneSecond ≠ [] := by
  have hiff : ∀ (ceiling : ℚ) (timeline : List TimedRep),
      rep_rate_violations ceiling timeline ≠ [] ↔
        ∃ p ∈ timeline.zip timeline.tail, 1 / (p.2.t - p.1.t) > ceiling := by
    intro ceiling timeline
    rw [Ne, rep_rate_violations, List.filterMap_eq_nil_iff]
    constructor
    · intro h
      by_contra hn
      push_neg at hn
      exact h (fun p _hp => if_neg (not_lt.mpr (hn p _hp)))
    · rintro ⟨p, hp, hrate⟩ h
      have := h p hp
      rw [if_pos hrate] at this
      exact Option.some_ne_none _ this
  refine ⟨hiff, ?_, ?_⟩
  · intro ceiling timeline e he
    unfold rep_rate_violations at he
    rw [List.mem_filterMap] at he
    obtain ⟨p, _hp, hfe⟩ := he
    by_cases hc : 1 / (p.2.t - p.1.t) > ceiling
    · rw [if_pos hc] at hfe
      cases hfe
      exact ⟨rfl, hc⟩
    · rw [if_neg hc] at hfe
      exact absurd hfe (Option.noConfusion)
  · refine (hiff 3 fiveRepsInOneSecond).mpr ⟨(⟨0, (0, 7)⟩, ⟨1/4, (8, 15)⟩), ?_, by norm_num⟩
    simp [fiveRepsInOneSecond]

/-- Witness for `rep_rate_collector_correct`: the first item emitted for the
five-reps-in-one-second timeline is a `rep_rate_violation` of magnitude 4,
above the 3.0 ceiling. -/
theorem rep_rate_collector_witness :
    (⟨EvidenceKind.rep_rate_violation, (0, 15), 4,
        "rep rate above physiological ceiling"⟩ : EvidenceItem).kind
      = EvidenceKind.rep_rate_violation ∧
    (⟨EvidenceKind.rep_rate_violation, (0, 15), 4,
        "rep rate above physiological ceiling"⟩ : EvidenceItem).magnitude > 3 :=
  rep_rate_collector_correct.2.1 3 fiveRepsInOneSecond _ (by
    norm_num [rep_rate_violations, fiveRepsInOneSecond, List.filterMap_cons])

/-- One step of the full machine preserves the range invariant, advancing
the frame index. -/
lemma repStep_inv (cfg : PushupCfg) (i : ℕ) (st : RepMachineState) (s : FrameSample)
    (h : RepInv i st) : RepInv (i + 1) (repStep cfg st i s) := by
  obtain ⟨hA, hB, hC, hD⟩ := h
  obtain ⟨ang, f⟩ := s
  cases ang with
  | none =>
    exact ⟨fun r hr => Nat.lt_succ_of_lt (hA r hr), hB, hC,
      fun hph => ⟨Nat.lt_succ_of_lt (hD hph).1, (hD hph).2⟩⟩
  | some a =>
    simp only [repStep]
    split_ifs with h1 h2
    · exact ⟨fun r hr => Nat.lt_succ_of_lt (hA r hr), hB, hC,
        fun _ => ⟨Nat.lt_succ_self i, fun r hr => hA r hr⟩⟩
    · have hd := hD h2.1
      refine ⟨?_, ?_, ?_, ?_⟩
      · intro r hr
        rcases List.mem_append.mp hr with hr | hr
        · exact Nat.lt_succ_of_lt (hA r hr)
        · rw [List.mem_singleton.mp hr]
          exact Nat.lt_succ_self i
      · rw [List.pairwise_append]
        refine ⟨hB, List.pairwise_singleton _ _, ?_⟩
        intro r hr r' hr'
        rw [List.mem_singleton.mp hr']
        exact hd.2 r hr
      · intro r hr
        rcases List.mem_append.mp hr with hr | hr
        · exact hC r hr
        · rw [List.mem_singleton.mp hr]
          exact hd.1
      · intro hph
        exact absurd hph (by simp)
    · exact ⟨fun r hr => Nat.lt_succ_of_lt (hA r hr), hB, hC,
        fun hph => ⟨Nat.lt_succ_of_lt (hD hph).1, (hD hph).2⟩⟩

/-- Running the full machine preserves the range invariant. -/
lemma runRepAux_inv (cfg : PushupCfg) :
    ∀ (frames : List FrameSample) (i : ℕ) (st : RepMachineState),
      RepInv i st → RepInv (i + frames.length) (runRepAux cfg i st frames) := by
  intro frames
  induction frames with
  | nil => intro i st h; simpa using h
  | cons s rest ih =>
    intro i st h
    have hstep := ih (i + 1) (repStep cfg st i s) (repStep_inv cfg i st s h)
    have heq : i + (s :: rest).length = i + 1 + rest.length := by
      simp [List.length_cons]
      omega
    rw [heq]
    exact hstep

/-- The initial machine state satisfies the invariant at index 0. -/
lemma initRepMachineState_inv : RepInv 0 initRepMachineState := by
  refine ⟨?_, ?_, ?_, ?_⟩ <;> simp [initRepMachineState, RepInv]

/-- C4.  Every analysis result satisfies `valid_reps ≤ total_reps`, its
repetition ranges are non-degenerate, pairwise non-overlapping and strictly
increasing in start_frame; moreover all-invalid runs can have
`total_reps > 0` with `valid_reps = 0` and all-valid runs have
`valid_reps = total_reps`. -/
theorem analysis_result_invariants :
    (∀ cfg inp,
      (analyze cfg inp).valid_reps ≤ (analyze cfg inp).total_reps ∧
      List.Pairwise (fun r s => r.end_frame < s.start_frame) (analyze cfg inp).reps ∧
      (∀ r ∈ (analyze cfg inp).reps, r.start_frame < r.end_frame)) ∧
    ((analyze defaultEngineCfg allInvalidInput).total_reps = 2 ∧
      (analyze defaultEngineCfg allInvalidInput).valid_reps = 0) ∧
    ((analyze defaultEngineCfg allValidInput).total_reps = 2 ∧
      (analyze defaultEngineCfg allValidInput).valid_reps = 2) := by
  refine ⟨fun cfg inp => ?_, ?_, ?_⟩
  · have hinv := runRepAux_inv cfg.pushup inp.frames 0 initRepMachineState
      initRepMachineState_inv
    refine ⟨?_, ?_, ?_⟩
    · simpa [analyze] using
        List.length_filter_le (fun r => r.valid) (runRepMachine cfg.pushup inp.frames).reps
    · simpa [analyze, runRepMachine] using hinv.2.1
    · simpa [analyze, runRepMachine] using hinv.2.2.1
  · constructor <;>
      norm_num [analyze, runRepMachine, runRepAux, repStep, initRepMachineState,
        allInvalidInput, synthSeq, cycleFrames, defaultEngineCfg, defaultPushupCfg]
  · constructor <;>
      norm_num [analyze, runRepMachine, runRepAux, repStep, initRepMachineState,
        allValidInput, synthSeq, cycleFrames, defaultEngineCfg, defaultPushupCfg]

/-- Witness for `analysis_result_invariants`: the first repetition recorded
on the sample input (frames 0 to 1) has a non-degenerate range. -/
theorem analysis_result_invariants_witness :
    (⟨1, 0, 1, 1, true⟩ : Repetition).start_frame
      < (⟨1, 0, 1, 1, true⟩ : Repetition).end_frame := by
  have hd : decide ((1:ℚ) > 7/10) = true := by norm_num
  refine (analysis_result_invariants.1 defaultEngineCfg sampleInput).2.2 _ ?_
  norm_num [analyze, runRepMachine, runRepAux, repStep, initRepMachineState,
    sampleInput, synthSeq, cycleFrames, defaultEngineCfg, defaultPushupCfg, hd]

/-- C7.  `calculate_angle` returns undefined (`none`, not an exception)
exactly when some landmark confidence is below the visibility floor; when it
returns a sample, the angle lies in [0, 180] degrees and the confidence is
the minimum of the three landmark confidences. -/
theorem calculate_angle_contract :
    ∀ (floor : ℚ) (A B C : Landmark),
      (calculate_angle floor A B C = none ↔
        (A.confidence < floor ∨ B.confidence < floor ∨ C.confidence < floor)) ∧
      (∀ s, calculate_angle floor A B C = some s →
        0 ≤ s.angle_degrees ∧ s.angle_degrees ≤ 180 ∧
          s.confidence = min (min A.confidence B.confidence) C.confidence) := by
  intro floor A B C
  constructor
  · unfold calculate_angle
    split_ifs with h
    · exact iff_of_true rfl h
    · simp [h]
  · intro s hs
    unfold calculate_angle at hs
    split_ifs at hs with h
    · injection hs with hs
      subst hs
      refine ⟨?_, ?_, rfl⟩
      · exact div_nonneg (mul_nonneg (Real.arccos_nonneg _) (by norm_num))
          Real.pi_pos.le
      · have h2 : Real.arccos (((A.x - B.x) * (C.x - B.x) + (A.y - B.y) * (C.y - B.y)) /
            (Real.sqrt ((A.x - B.x) ^ 2 + (A.y - B.y) ^ 2) *
              Real.sqrt ((C.x - B.x) ^ 2 + (C.y - B.y) ^ 2))) ≤ Real.pi :=
          Real.arccos_le_pi _
        have h3 : Real.arccos (((A.x - B.x) * (C.x - B.x) + (A.y - B.y) * (C.y - B.y)) /
            (Real.sqrt ((A.x - B.x) ^ 2 + (A.y - B.y) ^ 2) *
              Real.sqrt ((C.x - B.x) ^ 2 + (C.y - B.y) ^ 2))) * 180
              ≤ Real.pi * 180 :=
          mul_le_mul_of_nonneg_right h2 (by norm_num)
        calc angleAtVertex A B C
            ≤ Real.pi * 180 / Real.pi := by
              unfold angleAtVertex
              exact (div_le_div_iff_of_pos_right Real.pi_pos).mpr h3
          _ = 180 := mul_div_cancel_left₀ 180 Real.pi_ne_zero

/-- Witness for `calculate_angle_contract`: three landmarks with
confidences 0.9, 0.8, 0.7 against the default 0.5 floor yield a defined
sample whose angle is in [0, 180] and whose confidence is the minimum of
the three. -/
theorem calculate_angle_contract_witness :
    0 ≤ (⟨angleAtVertex ⟨1, 0, 9/10⟩ ⟨0, 0, 4/5⟩ ⟨0, 1, 7/10⟩,
          min (min (9/10) (4/5)) (7/10)⟩ : JointAngleSample).angle_degrees ∧
    (⟨angleAtVertex ⟨1, 0, 9/10⟩ ⟨0, 0, 4/5⟩ ⟨0, 1, 7/10⟩,
          min (min (9/10) (4/5)) (7/10)⟩ : JointAngleSample).angle_degrees ≤ 180 ∧
    (⟨angleAtVertex ⟨1, 0, 9/10⟩ ⟨0, 0, 4/5⟩ ⟨0, 1, 7/10⟩,
          min (min (9/10) (4/5)) (7/10)⟩ : JointAngleSample).confidence
      = min (min (⟨1, 0, 9/10⟩ : Landmark).confidence
            (⟨0, 0, 4/5⟩ : Landmark).confidence)
          (⟨0, 1, 7/10⟩ : Landmark).confidence :=
  (calculate_angle_contract (1/2) ⟨1, 0, 9/10⟩ ⟨0, 0, 4/5⟩ ⟨0, 1, 7/10⟩).2 _ (by
    unfold calculate_angle
    rw [if_neg (by norm_num)])

/-- C8.  The analysis engine is a pure function of its input: two runs on
identical frame/landmark input produce identical analysis results — the
embedding threads no ambient state, so determinism holds by congruence. -/
theorem analyze_deterministic (cfg : EngineCfg) (inp₁ inp₂ : EngineInput)
    (h : inp₁ = inp₂) : analyze cfg inp₁ = analyze cfg inp₂ := by
  rw [h]

/-- Witness for `analyze_deterministic`: two runs on the sample input agree. -/
theorem analyze_deterministic_witness :
    analyze defaultEngineCfg sampleInput = analyze defaultEngineCfg sampleInput :=
  analyze_deterministic defaultEngineCfg sampleInput sampleInput rfl

end Kreeda
